import Mathlib

/-!
Shallow embedding of the terminal-session core
(`src/qmltermwidget/lib/Emulation.cpp`, `Emulation.h`,
`src/qmltermwidget/lib/HistorySearch.cpp`), together with theorems settling
the specification's claims about it.
-/

set_option autoImplicit false

namespace Terminal

/-! ## Glyph intern table (`ExtendedCharTable`, Emulation.cpp:318-392)

Code points are `ushort` values; hashes are `ushort` and wrap modulo 2^16.
The `QHash<ushort, ushort*>` mapping hashes to length-prefixed buffers is
modelled as an association list from the hash to the stored code-point
sequence (the buffer's length prefix plus its points are exactly the list).
-/

def USHORT_LIMIT : Nat := 65536

/-- Models `ExtendedCharTable::extendedCharHash`: polynomial hash with
multiplier 31 computed in `ushort` arithmetic, wrapping modulo 2^16. -/
def extendedCharHash (unicodePoints : List Nat) : Nat :=
  unicodePoints.foldl (fun hash p => (31 * hash + p) % USHORT_LIMIT) 0

/-- Lookup in the association list backing the `QHash`. -/
def findEntry : List (Nat × List Nat) → Nat → Option (List Nat)
  | [], _ => none
  | e :: rest, hash => if e.1 = hash then some e.2 else findEntry rest hash

/-- The process-wide intern table (`ExtendedCharTable::instance`). -/
structure ExtendedCharTable where
  entries : List (Nat × List Nat)
deriving DecidableEq

def ExtendedCharTable.find (t : ExtendedCharTable) (hash : Nat) : Option (List Nat) :=
  findEntry t.entries hash

/-- Models `ExtendedCharTable::extendedCharMatch`: the slot is occupied, the
stored length prefix equals the query length, and the points coincide. -/
def extendedCharMatch (t : ExtendedCharTable) (hash : Nat) (unicodePoints : List Nat) : Bool :=
  match t.find hash with
  | none => false
  | some entry => entry = unicodePoints

/-- The probe loop of `ExtendedCharTable::createExtendedChar`: while the slot
at `hash` is occupied, return the handle on an exact match, otherwise advance
to the next slot (`hash++` on a `ushort` wraps at 2^16); at the first empty
slot the sequence is stored and the slot's hash returned.  `fuel` bounds the
probe: 2^16 steps visit every slot, so exhaustion means the table is full. -/
def createExtendedCharAux (t : ExtendedCharTable) (unicodePoints : List Nat) :
    Nat → Nat → Option (Nat × ExtendedCharTable)
  | _, 0 => none
  | hash, fuel + 1 =>
    match t.find hash with
    | some entry =>
        if entry = unicodePoints then some (hash, t)
        else createExtendedCharAux t unicodePoints ((hash + 1) % USHORT_LIMIT) fuel
    | none => some (hash, ⟨(hash, unicodePoints) :: t.entries⟩)

/-- Models `ExtendedCharTable::createExtendedChar`. -/
def createExtendedChar (t : ExtendedCharTable) (unicodePoints : List Nat) :
    Option (Nat × ExtendedCharTable) :=
  createExtendedCharAux t unicodePoints (extendedCharHash unicodePoints) USHORT_LIMIT

/-- Models `ExtendedCharTable::lookupExtendedChar`: the stored sequence (its
length prefix gives the length), or a null buffer with length 0 — modelled as
the empty list — when the slot is empty. -/
def lookupExtendedChar (t : ExtendedCharTable) (hash : Nat) : List Nat :=
  (t.find hash).getD []

/-! ## Control-character dispatch (`Emulation::receiveChar`, Emulation.cpp:183-196) -/

/-- The operations `receiveChar` can invoke: the four `Screen` cursor/content
calls, the bell notification `stateSet(NOTIFYBELL)`, and
`Screen::displayCharacter`. -/
inductive ScreenOp where
  | backspace
  | tab
  | newLine
  | toStartOfLine
  | notifyBell
  | displayCharacter (c : Nat)
deriving DecidableEq

/-- Models `Emulation::receiveChar`: the incoming code point is first masked
with `c &= 0xff`; the switch then dispatches on the masked value. -/
def receiveChar (c : Nat) : ScreenOp :=
  let m := c % 256
  if m = 8 then .backspace
  else if m = 9 then .tab
  else if m = 10 then .newLine
  else if m = 13 then .toStartOfLine
  else if m = 7 then .notifyBell
  else .displayCharacter m

/-! ## Z-modem sniff in `Emulation::receiveData` (Emulation.cpp:238-246) -/

/-- One test of the z-modem scan loop: at index `i` the byte is `'\030'`
(0x18), more than three bytes follow it (`length - i - 1 > 3`), and the three
bytes after it are `"B00"` (66, 48, 48). -/
def zmodemHitAt (chunk : List Nat) (i : Nat) : Bool :=
  (chunk.getD i 0 == 24) && decide (((chunk.length : Int)) - i - 1 > 3) &&
    (chunk.getD (i + 1) 0 == 66) && (chunk.getD (i + 2) 0 == 48) && (chunk.getD (i + 3) 0 == 48)

/-- Number of `zmodemDetected()` emissions of one `receiveData` call: the loop
visits every index and emits once per index passing the test — there is no
break or one-shot latch. -/
def zmodemEmitCount (chunk : List Nat) : Nat :=
  (List.range chunk.length).foldl (fun acc i => if zmodemHitAt chunk i then acc + 1 else acc) 0

/-- The claim's marker predicate: the chunk contains the byte 0x18 immediately
followed by the three literal bytes "B00" somewhere. -/
def containsZmodemMarker (chunk : List Nat) : Bool :=
  (List.range chunk.length).any (fun i => [24, 66, 48, 48].isPrefixOf (chunk.drop i))

/-! ## Geometry (`Emulation::setImageSize`, Emulation.cpp:292-311) -/

/-- A screen's geometry as read back by `Screen::getLines` / `getColumns`. -/
structure ScreenSize where
  lines : Int
  columns : Int
deriving DecidableEq

/-- The sizes of the two screens `_screen[0]`, `_screen[1]`. -/
structure ImageState where
  size0 : ScreenSize
  size1 : ScreenSize
deriving DecidableEq

/-- Externally visible effects of `setImageSize`: the `imageSizeChanged`
signal and the coalesced update request (`bufferedUpdate`). -/
inductive EmulationSignal where
  | imageSizeChanged (lines columns : Int)
  | updateRequest
deriving DecidableEq

/-- Models `Emulation::setImageSize`: reject non-positive dimensions, do
nothing when both screens already have the requested size, otherwise resize
both screens, emit `imageSizeChanged`, and request a coalesced update.
Returns the new sizes and the emitted signals in order. -/
def setImageSize (s : ImageState) (lines columns : Int) : ImageState × List EmulationSignal :=
  if lines < 1 ∨ columns < 1 then (s, [])
  else
    let newSize : ScreenSize := ⟨lines, columns⟩
    if newSize = s.size0 ∧ newSize = s.size1 then (s, [])
    else (⟨newSize, newSize⟩, [.imageSizeChanged lines columns, .updateRequest])

/-! ## Active-screen switching (`Emulation::setScreen`, Emulation.cpp:123-133) -/

/-- The controller's two screens and its active-screen selector.  The two
`Screen` objects are distinct heap objects, so the pointer comparison
`_currentScreen != old` holds exactly when the selected index changes; the
active pointer is therefore modelled as the index (`false` = `_screen[0]`,
`true` = `_screen[1]`).  Screen contents are abstract in `α`. -/
structure EmulationScreens (α : Type) where
  screen0 : α
  screen1 : α
  currentIsAlternate : Bool

/-- Low bit of a two's-complement `int`, as in `_screen[n & 1]`: equals `n`
modulo 2 (Euclidean, so also correct for negative `n`). -/
def lowBit (n : Int) : Int := n % 2

/-- Models `Emulation::setScreen`: select `_screen[n & 1]`; if the active
screen changed, every attached window is told to rebind
(`window->setScreen(_currentScreen)`).  Returns the new state and whether the
windows were rebound.  Screen contents are not touched. -/
def setScreen {α : Type} (s : EmulationScreens α) (n : Int) : EmulationScreens α × Bool :=
  let old := s.currentIsAlternate
  let newCurrent : Bool := decide (lowBit n = 1)
  ({ s with currentIsAlternate := newCurrent }, newCurrent != old)

/-- The contents of the currently active screen. -/
def activeScreen {α : Type} (s : EmulationScreens α) : α :=
  if s.currentIsAlternate then s.screen1 else s.screen0

/-! ## Update coalescing (`bufferedUpdate` / `showBulk`, Emulation.cpp:264-285)

A pending single-shot timer is modelled by its absolute deadline.
-/

def BULK_TIMEOUT1 : Int := 10
def BULK_TIMEOUT2 : Int := 40

/-- State of the two coalescing timers `_bulkTimer1` / `_bulkTimer2` together
with the active screen's scrolled/dropped line counters. -/
structure BulkState where
  bulkTimer1 : Option Int
  bulkTimer2 : Option Int
  scrolledLines : Int
  droppedLines : Int
deriving DecidableEq

/-- Models `Emulation::bufferedUpdate` at time `now`:
`_bulkTimer1.start(BULK_TIMEOUT1)` restarts the short timer unconditionally;
the long timer is started only when it is not already active. -/
def bufferedUpdate (s : BulkState) (now : Int) : BulkState :=
  { s with
    bulkTimer1 := some (now + BULK_TIMEOUT1)
    bulkTimer2 :=
      match s.bulkTimer2 with
      | some d => some d
      | none => some (now + BULK_TIMEOUT2) }

/-- Models `Emulation::showBulk`: stop both timers, emit `outputChanged` once,
and reset the scrolled/dropped counters.  Returns the new state and the
number of `outputChanged` emissions. -/
def showBulk (_s : BulkState) : BulkState × Nat :=
  ({ bulkTimer1 := none, bulkTimer2 := none, scrolledLines := 0, droppedLines := 0 }, 1)

/-- Whether some pending deadline has elapsed by `now`. -/
def deadlineElapsed (s : BulkState) (now : Int) : Bool :=
  (match s.bulkTimer1 with | some d => decide (d ≤ now) | none => false) ||
  (match s.bulkTimer2 with | some d => decide (d ≤ now) | none => false)

/-- Both timers are connected to `showBulk` (Emulation.cpp:66-67): when either
deadline elapses, `showBulk` runs; otherwise nothing happens. -/
def timerFire (s : BulkState) (now : Int) : BulkState × Nat :=
  if deadlineElapsed s now then showBulk s else (s, 0)

/-! ## History search (`HistorySearch.cpp`)

The buffer is a list of lines, each a list of characters; the search pattern
is a literal character sequence matched exactly (the claims only exercise
literal patterns, for which `QRegularExpression` matching is literal
substring matching).  `Screen::writeLinesToStream` and `PlainTextDecoder` are
not part of the sources and are modelled from the spec where noted.
-/

/-- Whether `pat` occurs in `text` at offset `i`. -/
def occursAt (text pat : List Char) (i : Nat) : Bool :=
  pat.isPrefixOf (text.drop i)

/-- Models `QRegularExpression::match(string, offset)` for a literal pattern,
as spec §4.4 describes the forward matcher: "locate the first match at or
after the given start column" — the least occurrence whose offset is at
least `start`. -/
def firstMatchFrom (text pat : List Char) (start : Int) : Option Nat :=
  (List.range (text.length + 1)).find? (fun i => decide (start ≤ (i : Int)) && occursAt text pat i)

/-- Models `QRegularExpression::globalMatch` for a literal pattern, as spec
§4.4 describes the backward matcher's input: "enumerate all matches in the
block in order" — all non-overlapping occurrences in increasing offset
order; an empty pattern advances by one position per match.  `fuel` bounds
the walk; offsets grow by at least one per step, so `text.length + 1` steps
are always enough. -/
def globalMatchesAux (text pat : List Char) : Nat → Nat → List Nat
  | 0, _ => []
  | fuel + 1, start =>
    match firstMatchFrom text pat (start : Int) with
    | none => []
    | some i => i :: globalMatchesAux text pat fuel (i + max 1 pat.length)

def globalMatches (text pat : List Char) : List Nat :=
  globalMatchesAux text pat (text.length + 1) 0

/-- The per-match test of the backward-scan loop of
`HistorySearch::search(int,int,int,int)` (HistorySearch.cpp:116-126): the
match's start is strictly below `endPosition` and, unless `startColumn` is
the sentinel -1, at least `startColumn`. -/
def matchQualifies (endPosition startColumn : Int) (i : Nat) : Bool :=
  decide ((i : Int) < endPosition) && ((startColumn == -1) || decide (startColumn ≤ (i : Int)))

/-- The backward-scan loop itself: walk the matches in order, remember each
qualifying match, break at the first match failing the test; the remembered
(last qualifying) match wins. -/
def lastQualifying (endPosition startColumn : Int) : List Nat → Option Nat
  | [] => none
  | i :: rest =>
    if matchQualifies endPosition startColumn i then
      match lastQualifying endPosition startColumn rest with
      | some j => some j
      | none => some i
    else none

/-- Modelled from the spec: `Emulation::writeToStream` delegates to
`Screen::writeLinesToStream`, which is not under the sources.  Spec §6: the
decoder capability, "given a raw byte run, yields decoded text plus the
offset at which each source line begins"; the export covers the requested
line range, and line indices outside the buffer contribute nothing. -/
def exportedLines (lines : List (List Char)) (fromLine toLine : Int) : List (List Char) :=
  (lines.enum.filter
    (fun p => decide (fromLine ≤ (p.1 : Int)) && decide ((p.1 : Int) ≤ toLine))).map Prod.snd

/-- Modelled from the spec: the decoded text of an exported block — each line
terminated by a newline (spec §4.4 measures boundaries in offsets of this
text). -/
def decodedText (sel : List (List Char)) : List Char :=
  sel.foldr (fun l acc => l ++ '\n' :: acc) []

/-- Modelled from the spec: the decoder's `linePositions()` — "the offset at
which each source line begins" (spec §6), with one trailing entry at the end
of the decoded text, so that `linePositions().size() - 1` is the number of
lines in the block and the entry at index `size - 2` is the
"offset-of-last-line-start" that spec §4.4 uses for the end boundary. -/
def linePositions (sel : List (List Char)) : List Int :=
  (sel.map (fun l => (l.length : Int) + 1)).scanl (· + ·) 0

/-- Models the loop of `HistorySearch::findLineNumberInString`
(HistorySearch.cpp:162-168): `lineNum` advances while the next recorded
position (the head of the remaining tail) is at most `position`. -/
def findLineNumberAux (position : Int) : Nat → List Int → Nat
  | lineNum, [] => lineNum
  | lineNum, p :: rest =>
    if p ≤ position then findLineNumberAux position (lineNum + 1) rest else lineNum

/-- Models `HistorySearch::findLineNumberInString`: the greatest line index
whose recorded start offset is at most `position`. -/
def findLineNumberInString (positions : List Int) (position : Int) : Nat :=
  findLineNumberAux position 0 (positions.drop 1)

/-- A `matchFound` payload: `m_foundStartColumn`, `m_foundStartLine`,
`m_foundEndColumn`, `m_foundEndLine`. -/
structure SearchHit where
  foundStartColumn : Int
  foundStartLine : Int
  foundEndColumn : Int
  foundEndLine : Int
deriving DecidableEq

/-- Models the block loop of `HistorySearch::search(int,int,int,int)`
(HistorySearch.cpp:64-160): blocks of at most 10000 lines; per block the
decoded text, the end boundary, and a forward or backward match; on failure
advance `linesRead` by the block size.  `fuel` bounds the loop; `linesRead`
grows by at least one per iteration, so `linesToRead + 1` steps always reach
the exit condition. -/
def searchRangeAux (lines : List (List Char)) (pat : List Char) (forwards : Bool)
    (startColumn startLine endColumn endLine : Int) :
    Nat → Int → Option SearchHit
  | 0, _ => none
  | fuel + 1, linesRead =>
    let linesToRead := endLine - startLine + 1
    let blockSize := min 10000 (linesToRead - linesRead)
    if blockSize ≤ 0 then none
    else
      let blockStartLine :=
        if forwards then startLine + linesRead else endLine - linesRead - blockSize + 1
      let chunkEndLine := blockStartLine + blockSize - 1
      let sel := exportedLines lines blockStartLine chunkEndLine
      let text := decodedText sel
      let positions := linePositions sel
      let numberOfLinesInString : Int := (positions.length : Int) - 1
      let endPosition : Int :=
        if numberOfLinesInString > 0 ∧ endColumn > -1 then
          positions.getD (numberOfLinesInString - 1).toNat 0 + endColumn
        else
          (text.length : Int)
      let matchStart? : Option Nat :=
        if forwards then
          match firstMatchFrom text pat startColumn with
          | some i => if (i : Int) ≥ endPosition then none else some i
          | none => none
        else
          lastQualifying endPosition startColumn (globalMatches text pat)
      match matchStart? with
      | some matchStart =>
        let matchEnd : Int := (matchStart : Int) + pat.length - 1
        let startLineNumberInString := findLineNumberInString positions matchStart
        let endLineNumberInString := findLineNumberInString positions matchEnd
        some { foundStartColumn := (matchStart : Int) - positions.getD startLineNumberInString 0
               foundStartLine := (startLineNumberInString : Int) + startLine + linesRead
               foundEndColumn := matchEnd - positions.getD endLineNumberInString 0
               foundEndLine := (endLineNumberInString : Int) + startLine + linesRead }
      | none =>
        searchRangeAux lines pat forwards startColumn startLine endColumn endLine
          fuel (linesRead + blockSize)

/-- Models `HistorySearch::search(int startColumn, int startLine,
int endColumn, int endLine)`. -/
def searchRange (lines : List (List Char)) (pat : List Char) (forwards : Bool)
    (startColumn startLine endColumn endLine : Int) : Option SearchHit :=
  searchRangeAux lines pat forwards startColumn startLine endColumn endLine
    ((endLine - startLine + 1).toNat + 1) 0

/-- The one-shot engine's possible emissions. -/
inductive SearchEmission where
  | matchFound (hit : SearchHit)
  | noMatchFound
deriving DecidableEq

/-- The `found` computation of `HistorySearch::search()` (HistorySearch.cpp:47-51):
the nearer half-range is scanned first, the other half only on failure
(`||` short-circuits). -/
def searchFound (lines : List (List Char)) (pat : List Char) (forwards : Bool)
    (startColumn startLine : Int) : Option SearchHit :=
  let lineCount : Int := (lines.length : Int)
  if forwards then
    match searchRange lines pat forwards startColumn startLine (-1) lineCount with
    | some hit => some hit
    | none => searchRange lines pat forwards 0 0 startColumn startLine
  else
    match searchRange lines pat forwards 0 0 startColumn startLine with
    | some hit => some hit
    | none => searchRange lines pat forwards startColumn startLine (-1) lineCount

/-- Models `HistorySearch::search()` (HistorySearch.cpp:41-62): nothing at all
for an empty pattern; otherwise the nearer half-range is scanned first and
the other half only on failure, and exactly one signal is emitted. -/
def searchRun (lines : List (List Char)) (pat : List Char) (forwards : Bool)
    (startColumn startLine : Int) : List SearchEmission :=
  if pat = [] then []
  else
    match searchFound lines pat forwards startColumn startLine with
    | some hit => [.matchFound hit]
    | none => [.noMatchFound]

/-! ## Theorems -/

theorem find_cons (k : Nat) (v : List Nat) (l : List (Nat × List Nat)) (h : Nat) :
    ExtendedCharTable.find ⟨(k, v) :: l⟩ h =
      if k = h then some v else ExtendedCharTable.find ⟨l⟩ h := rfl

/-- The handle returned by the probe loop stores exactly the interned sequence. -/
theorem createExtendedCharAux_find_self (t : ExtendedCharTable) (pts : List Nat) :
    ∀ (fuel hash h' : Nat) (t' : ExtendedCharTable),
      createExtendedCharAux t pts hash fuel = some (h', t') → t'.find h' = some pts := by
  intro fuel
  induction fuel with
  | zero => intro hash h' t' hEq; simp [createExtendedCharAux] at hEq
  | succ n ih =>
    intro hash h' t' hEq
    unfold createExtendedCharAux at hEq
    cases ht : t.find hash with
    | some entry =>
      rw [ht] at hEq
      by_cases he : entry = pts
      · simp [he] at hEq
        obtain ⟨h1, h2⟩ := hEq
        subst h1; subst h2
        rw [ht, he]
      · simp [he] at hEq
        exact ih _ h' t' hEq
    | none =>
      rw [ht] at hEq
      simp at hEq
      obtain ⟨h1, h2⟩ := hEq
      subst h1
      rw [← h2, find_cons]
      simp

/-- The probe loop never removes or overwrites an occupied slot. -/
theorem createExtendedCharAux_preserves (t : ExtendedCharTable) (pts : List Nat) :
    ∀ (fuel hash h' : Nat) (t' : ExtendedCharTable),
      createExtendedCharAux t pts hash fuel = some (h', t') →
      ∀ (k : Nat) (v : List Nat), t.find k = some v → t'.find k = some v := by
  intro fuel
  induction fuel with
  | zero => intro hash h' t' hEq; simp [createExtendedCharAux] at hEq
  | succ n ih =>
    intro hash h' t' hEq k v hk
    unfold createExtendedCharAux at hEq
    cases ht : t.find hash with
    | some entry =>
      rw [ht] at hEq
      by_cases he : entry = pts
      · simp [he] at hEq
        obtain ⟨_, h2⟩ := hEq
        subst h2; exact hk
      · simp [he] at hEq
        exact ih _ h' t' hEq k v hk
    | none =>
      rw [ht] at hEq
      simp at hEq
      obtain ⟨_, h2⟩ := hEq
      rw [← h2, find_cons]
      have : hash ≠ k := by
        intro hcontra
        rw [hcontra, hk] at ht
        exact Option.noConfusion ht
      simp [this]
      exact hk

/-- Re-running the probe loop after an insertion returns the same handle and
leaves the table unchanged. -/
theorem createExtendedCharAux_idem (t : ExtendedCharTable) (pts : List Nat) :
    ∀ (fuel hash h' : Nat) (t' : ExtendedCharTable),
      createExtendedCharAux t pts hash fuel = some (h', t') →
      createExtendedCharAux t' pts hash fuel = some (h', t') := by
  intro fuel
  induction fuel with
  | zero => intro hash h' t' hEq; simp [createExtendedCharAux] at hEq
  | succ n ih =>
    intro hash h' t' hEq
    unfold createExtendedCharAux at hEq ⊢
    cases ht : t.find hash with
    | some entry =>
      rw [ht] at hEq
      by_cases he : entry = pts
      · simp [he] at hEq
        obtain ⟨h1, h2⟩ := hEq
        subst h1; subst h2
        rw [ht]
        simp [he]
      · simp [he] at hEq
        have hfind : t'.find hash = some entry :=
          createExtendedCharAux_preserves t pts n _ h' t' hEq hash entry ht
        rw [hfind]
        simp [he]
        exact ih _ h' t' hEq
    | none =>
      rw [ht] at hEq
      simp at hEq
      obtain ⟨h1, h2⟩ := hEq
      subst h1
      have hfind : t'.find hash = some pts := by
        rw [← h2, find_cons]; simp
      rw [hfind]
      simp

/-- Claim C1: interning two distinct non-empty sequences one after the other
yields different handles; re-interning a sequence returns the same handle
(and the same table); and looking up a freshly interned handle returns
exactly the interned sequence. -/
theorem claim_C1_intern_table :
    (∀ (t t' : ExtendedCharTable) (S : List Nat) (h : Nat),
      S ≠ [] → createExtendedChar t S = some (h, t') →
      lookupExtendedChar t' h = S) ∧
    (∀ (t t' : ExtendedCharTable) (S : List Nat) (h : Nat),
      S ≠ [] → createExtendedChar t S = some (h, t') →
      createExtendedChar t' S = some (h, t')) ∧
    (∀ (t tA tB : ExtendedCharTable) (A B : List Nat) (hA hB : Nat),
      A ≠ [] → B ≠ [] → A ≠ B →
      createExtendedChar t A = some (hA, tA) →
      createExtendedChar tA B = some (hB, tB) →
      hA ≠ hB) := by
  refine ⟨?_, ?_, ?_⟩
  · intro t t' S h _ hEq
    have hf := createExtendedCharAux_find_self t S USHORT_LIMIT (extendedCharHash S) h t' hEq
    simp [lookupExtendedChar, hf]
  · intro t t' S h _ hEq
    exact createExtendedCharAux_idem t S USHORT_LIMIT (extendedCharHash S) h t' hEq
  · intro t tA tB A B hA hB _ _ hAB h1 h2 hcontra
    have hfA : tA.find hA = some A :=
      createExtendedCharAux_find_self t A USHORT_LIMIT (extendedCharHash A) hA tA h1
    have hfB : tB.find hB = some B :=
      createExtendedCharAux_find_self tA B USHORT_LIMIT (extendedCharHash B) hB tB h2
    have hfA' : tB.find hA = some A :=
      createExtendedCharAux_preserves tA B USHORT_LIMIT (extendedCharHash B) hB tB h2 hA A hfA
    rw [hcontra, hfB] at hfA'
    exact hAB (Option.some.inj hfA').symm

/-- Witness for C1 at the concrete inputs A = [1, 2] and B = [3], interned
into the empty table: the round trip returns [1, 2], and the two handles
(33 and 3) differ. -/
theorem claim_C1_intern_table_witness :
    lookupExtendedChar ⟨[(33, [1, 2])]⟩ 33 = [1, 2] ∧ (33 : Nat) ≠ 3 :=
  ⟨claim_C1_intern_table.1 ⟨[]⟩ ⟨[(33, [1, 2])]⟩ [1, 2] 33 (by decide) (by decide),
   claim_C1_intern_table.2.2 ⟨[]⟩ ⟨[(33, [1, 2])]⟩ ⟨[(3, [3]), (33, [1, 2])]⟩
     [1, 2] [3] 33 3 (by decide) (by decide) (by decide) (by decide) (by decide)⟩

/-- Claim C4 counterexample: code point 0x141 (321) is none of the five
control codes, yet it is not written as a glyph carrying 321 — the `c &= 0xff`
mask makes `receiveChar` display 0x41 (65) instead. -/
theorem claim_C4_counterexample :
    receiveChar 321 = ScreenOp.displayCharacter 65 ∧
      receiveChar 321 ≠ ScreenOp.displayCharacter 321 ∧
      (321 : Nat) ≠ 8 ∧ (321 : Nat) ≠ 9 ∧ (321 : Nat) ≠ 10 ∧
      (321 : Nat) ≠ 13 ∧ (321 : Nat) ≠ 7 := by
  decide

/-- Claim C4 as amended: `receiveChar` first reduces the code point modulo
256; for the reduced value, backspace moves the cursor left, tab advances to
the next stop, line feed inserts a new line, carriage return moves to the
start of the line, bell raises the attention notification, and every other
reduced value is written as a glyph carrying that reduced value. -/
theorem claim_C4_dispatch (c : Nat) :
    (c % 256 = 8 → receiveChar c = ScreenOp.backspace) ∧
    (c % 256 = 9 → receiveChar c = ScreenOp.tab) ∧
    (c % 256 = 10 → receiveChar c = ScreenOp.newLine) ∧
    (c % 256 = 13 → receiveChar c = ScreenOp.toStartOfLine) ∧
    (c % 256 = 7 → receiveChar c = ScreenOp.notifyBell) ∧
    (c % 256 ≠ 8 → c % 256 ≠ 9 → c % 256 ≠ 10 → c % 256 ≠ 13 → c % 256 ≠ 7 →
      receiveChar c = ScreenOp.displayCharacter (c % 256)) := by
  refine ⟨fun h => ?_, fun h => ?_, fun h => ?_, fun h => ?_, fun h => ?_,
    fun h8 h9 h10 h13 h7 => ?_⟩ <;>
  simp [receiveChar, *]

/-- Witness for the amended C4 at code point 65 ('A'), which is written as a
glyph carrying 65. -/
theorem claim_C4_dispatch_witness :
    receiveChar 65 = ScreenOp.displayCharacter (65 % 256) :=
  (claim_C4_dispatch 65).2.2.2.2.2 (by decide) (by decide) (by decide) (by decide) (by decide)

/-- Claim C6: `setImageSize` with a non-positive dimension leaves the sizes
unchanged and emits nothing; when both screens already have the requested
size it is a no-op; otherwise both screens are resized and exactly one
`imageSizeChanged` signal plus one coalesced update request are emitted. -/
theorem claim_C6_setImageSize :
    (∀ (s : ImageState) (lines columns : Int), lines < 1 ∨ columns < 1 →
      setImageSize s lines columns = (s, [])) ∧
    (∀ (s : ImageState) (lines columns : Int),
      ScreenSize.mk lines columns = s.size0 → ScreenSize.mk lines columns = s.size1 →
      setImageSize s lines columns = (s, [])) ∧
    (∀ (s : ImageState) (lines columns : Int), 1 ≤ lines → 1 ≤ columns →
      ¬(ScreenSize.mk lines columns = s.size0 ∧ ScreenSize.mk lines columns = s.size1) →
      setImageSize s lines columns =
        (⟨⟨lines, columns⟩, ⟨lines, columns⟩⟩,
         [EmulationSignal.imageSizeChanged lines columns, EmulationSignal.updateRequest])) := by
  refine ⟨?_, ?_, ?_⟩
  · intro s lines columns h
    simp [setImageSize, h]
  · intro s lines columns h0 h1
    by_cases hp : lines < 1 ∨ columns < 1
    · simp [setImageSize, hp]
    · simp only [setImageSize]
      rw [if_neg hp, if_pos ⟨h0, h1⟩]
  · intro s lines columns hl hc hne
    have hp : ¬(lines < 1 ∨ columns < 1) := by omega
    simp [setImageSize, hp, hne]

/-- Witness for C6: a resize to 0 lines is ignored, and a proper resize of a
40x80 pair to 25x90 resizes both screens and emits the two effects. -/
theorem claim_C6_setImageSize_witness :
    setImageSize ⟨⟨40, 80⟩, ⟨40, 80⟩⟩ 0 80 = (⟨⟨40, 80⟩, ⟨40, 80⟩⟩, []) ∧
    setImageSize ⟨⟨40, 80⟩, ⟨40, 80⟩⟩ 25 90 =
      (⟨⟨25, 90⟩, ⟨25, 90⟩⟩,
       [EmulationSignal.imageSizeChanged 25 90, EmulationSignal.updateRequest]) :=
  ⟨claim_C6_setImageSize.1 ⟨⟨40, 80⟩, ⟨40, 80⟩⟩ 0 80 (by decide),
   claim_C6_setImageSize.2.2 ⟨⟨40, 80⟩, ⟨40, 80⟩⟩ 25 90 (by decide) (by decide) (by decide)⟩

/-- Claim C7: `setScreen` only reassigns the active-screen selector — the
contents of both screens are untouched, so switching away and back leaves
them identical — and the attached windows are rebound exactly when the
resulting active screen differs from the prior one. -/
theorem claim_C7_setScreen_pure {α : Type} (s : EmulationScreens α) (n m : Int) :
    ((setScreen s n).1.screen0 = s.screen0 ∧ (setScreen s n).1.screen1 = s.screen1) ∧
    ((setScreen (setScreen s n).1 m).1.screen0 = s.screen0 ∧
     (setScreen (setScreen s n).1 m).1.screen1 = s.screen1) ∧
    ((setScreen s n).2 = ((setScreen s n).1.currentIsAlternate != s.currentIsAlternate)) :=
  ⟨⟨rfl, rfl⟩, ⟨rfl, rfl⟩, rfl⟩

/-- Claim C10: `setScreen` uses only the low bit of the index — an even index
selects the primary screen, an odd index (also negative) the alternate one,
so no index selects anything outside the two screens. -/
theorem claim_C10_low_bit {α : Type} (s : EmulationScreens α) (n : Int) :
    (Even n → activeScreen (setScreen s n).1 = s.screen0) ∧
    (¬Even n → activeScreen (setScreen s n).1 = s.screen1) := by
  constructor
  · intro h
    have h0 : n % 2 = 0 := Int.even_iff.mp h
    simp [setScreen, activeScreen, lowBit, h0]
  · intro h
    have h1 : n % 2 = 1 := Int.not_even_iff.mp h
    simp [setScreen, activeScreen, lowBit, h1]

/-- Witness for C10: index 2 selects the primary screen and index -3 the
alternate one on a concrete state. -/
theorem claim_C10_low_bit_witness :
    activeScreen (setScreen (⟨10, 20, false⟩ : EmulationScreens Nat) 2).1 = 10 ∧
    activeScreen (setScreen (⟨10, 20, false⟩ : EmulationScreens Nat) (-3)).1 = 20 :=
  ⟨(claim_C10_low_bit ⟨10, 20, false⟩ 2).1 (by decide),
   (claim_C10_low_bit ⟨10, 20, false⟩ (-3)).2 (by decide)⟩

/-- Claim C8: every content change restarts the short 10 ms deadline, arms
the long 40 ms deadline only when it is not already pending, and whichever
deadline elapses first runs `showBulk`, which clears both deadlines, emits
exactly one `outputChanged` notification, and resets the scrolled/dropped
counters. -/
theorem claim_C8_coalescing :
    (∀ (s : BulkState) (now : Int),
      (bufferedUpdate s now).bulkTimer1 = some (now + BULK_TIMEOUT1)) ∧
    (∀ (s : BulkState) (now : Int), s.bulkTimer2 = none →
      (bufferedUpdate s now).bulkTimer2 = some (now + BULK_TIMEOUT2)) ∧
    (∀ (s : BulkState) (now : Int) (d : Int), s.bulkTimer2 = some d →
      (bufferedUpdate s now).bulkTimer2 = some d) ∧
    (∀ (s : BulkState) (now : Int), deadlineElapsed s now = true →
      timerFire s now =
        ({ bulkTimer1 := none, bulkTimer2 := none,
           scrolledLines := 0, droppedLines := 0 }, 1)) := by
  refine ⟨fun s now => rfl, fun s now h => ?_, fun s now d h => ?_, fun s now h => ?_⟩
  · simp [bufferedUpdate, h]
  · simp [bufferedUpdate, h]
  · simp [timerFire, h, showBulk]

/-- Witness for C8: arming from idle sets the 40 ms deadline, and an elapsed
deadline flushes to the cleared state with exactly one notification. -/
theorem claim_C8_coalescing_witness :
    (bufferedUpdate ⟨none, none, 5, 6⟩ 0).bulkTimer2 = some (0 + BULK_TIMEOUT2) ∧
    timerFire ⟨some 0, some 30, 5, 6⟩ 10 =
      ({ bulkTimer1 := none, bulkTimer2 := none,
         scrolledLines := 0, droppedLines := 0 }, 1) :=
  ⟨claim_C8_coalescing.2.1 ⟨none, none, 5, 6⟩ 0 rfl,
   claim_C8_coalescing.2.2.2 ⟨some 0, some 30, 5, 6⟩ 10 (by decide)⟩

/-- Counting via the scan loop's accumulator equals a filtered length. -/
theorem foldl_count_eq (p : Nat → Bool) (l : List Nat) :
    ∀ acc : Nat,
      l.foldl (fun acc i => if p i then acc + 1 else acc) acc = acc + (l.filter p).length := by
  induction l with
  | nil => intro acc; simp
  | cons a l ih =>
    intro acc
    by_cases h : p a
    · simp [List.foldl_cons, h, ih, List.filter_cons]
      omega
    · simp [List.foldl_cons, h, ih, List.filter_cons]

/-- The loop's per-index test holds exactly when the four marker bytes sit at
`i` and at least one further byte follows them. -/
theorem zmodemHitAt_iff (chunk : List Nat) (i : Nat) :
    zmodemHitAt chunk i =
      ([24, 66, 48, 48].isPrefixOf (chunk.drop i) && decide (i + 4 < chunk.length)) := by
  rw [Bool.eq_iff_iff, Bool.and_eq_true, decide_eq_true_eq]
  by_cases hlen : i + 4 < chunk.length
  case pos =>
    have h0 : i < chunk.length := by omega
    have h1 : i + 1 < chunk.length := by omega
    have h2 : i + 2 < chunk.length := by omega
    have h3 : i + 3 < chunk.length := by omega
    have hInt : ((chunk.length : Int)) - i - 1 > 3 := by omega
    have hd : chunk.drop i =
        chunk[i] :: chunk[i + 1] :: chunk[i + 2] :: chunk[i + 3] :: chunk.drop (i + 4) := by
      rw [List.drop_eq_getElem_cons h0, List.drop_eq_getElem_cons h1,
        List.drop_eq_getElem_cons h2, List.drop_eq_getElem_cons h3]
    simp only [zmodemHitAt, Bool.and_eq_true, decide_eq_true_eq, beq_iff_eq,
      List.getD_eq_getElem chunk 0 h0, List.getD_eq_getElem chunk 0 h1,
      List.getD_eq_getElem chunk 0 h2, List.getD_eq_getElem chunk 0 h3,
      hd, List.isPrefixOf, Bool.and_true]
    constructor <;> intro h <;> omega
  case neg =>
    have hInt : ¬(((chunk.length : Int)) - i - 1 > 3) := by omega
    simp only [zmodemHitAt, Bool.and_eq_true, decide_eq_true_eq]
    constructor
    · rintro ⟨⟨⟨⟨-, h⟩, -⟩, -⟩, -⟩
      exact absurd h hInt
    · rintro ⟨-, h⟩
      exact absurd h hlen

/-- Claim C5 counterexample: a chunk with two complete markers raises two
notifications in a single call, not one; and a marker whose "B00" ends flush
with the chunk raises none at all. -/
theorem claim_C5_counterexample :
    containsZmodemMarker [24, 66, 48, 48, 24, 66, 48, 48, 0] = true ∧
      zmodemEmitCount [24, 66, 48, 48, 24, 66, 48, 48, 0] = 2 ∧
      containsZmodemMarker [24, 66, 48, 48] = true ∧
      zmodemEmitCount [24, 66, 48, 48] = 0 := by
  decide

/-- Claim C5 as amended: one `zmodemDetected` notification is raised per
occurrence of 0x18 immediately followed by "B00" that has at least one
further byte after it (the scan demands more than three bytes after the
0x18); occurrences ending flush with the chunk raise none, and k qualifying
occurrences raise k notifications in one ingest call. -/
theorem claim_C5_zmodem_per_occurrence (chunk : List Nat) :
    zmodemEmitCount chunk =
      ((List.range chunk.length).filter
        (fun i =>
          [24, 66, 48, 48].isPrefixOf (chunk.drop i) && decide (i + 4 < chunk.length))).length := by
  unfold zmodemEmitCount
  rw [foldl_count_eq]
  rw [Nat.zero_add]
  congr 1
  apply List.filter_congr
  intro i _
  exact zmodemHitAt_iff chunk i

/-- A successful literal match starts no earlier than the requested offset. -/
theorem firstMatchFrom_le (text pat : List Char) (start : Int) (i : Nat)
    (h : firstMatchFrom text pat start = some i) : start ≤ (i : Int) := by
  unfold firstMatchFrom at h
  have hp := List.find?_some h
  simp at hp
  exact hp.1

/-- Every offset produced by the global-match walk is at least the walk's
current start offset. -/
theorem globalMatchesAux_le (text pat : List Char) :
    ∀ (fuel start x : Nat), x ∈ globalMatchesAux text pat fuel start → start ≤ x := by
  intro fuel
  induction fuel with
  | zero => intro start x hx; simp [globalMatchesAux] at hx
  | succ n ih =>
    intro start x hx
    unfold globalMatchesAux at hx
    cases hf : firstMatchFrom text pat (start : Int) with
    | none => rw [hf] at hx; simp at hx
    | some i =>
      rw [hf] at hx
      simp at hx
      rcases hx with rfl | hx
      · exact_mod_cast firstMatchFrom_le text pat _ x hf
      · have h1 := ih _ x hx
        have h2 : (start : Int) ≤ (i : Int) := firstMatchFrom_le text pat _ i hf
        have h2' : start ≤ i := by exact_mod_cast h2
        omega

/-- The global-match walk enumerates offsets in strictly increasing order. -/
theorem globalMatchesAux_chain (text pat : List Char) :
    ∀ (fuel start : Nat), List.Chain' (· < ·) (globalMatchesAux text pat fuel start) := by
  intro fuel
  induction fuel with
  | zero => intro start; simp [globalMatchesAux]
  | succ n ih =>
    intro start
    unfold globalMatchesAux
    cases hf : firstMatchFrom text pat (start : Int) with
    | none => simp
    | some i =>
      rw [List.chain'_cons']
      refine ⟨?_, ih _⟩
      intro y hy
      have hmem := List.mem_of_mem_head? hy
      have hge := globalMatchesAux_le text pat n _ y hmem
      have hmax : 1 ≤ max 1 pat.length := le_max_left _ _
      omega

theorem getLast?_cons_eq {α : Type} (a : α) (l : List α) :
    (a :: l).getLast? =
      match l.getLast? with
      | some j => some j
      | none => some a := by
  cases l with
  | nil => simp
  | cons b l' =>
    rw [List.getLast?_cons_cons]
    cases hl : (b :: l').getLast? with
    | none =>
      rw [List.getLast?_eq_none_iff] at hl
      exact List.noConfusion hl
    | some j => rfl

/-- The backward-scan loop retains the last element of the longest qualifying
prefix of the match list. -/
theorem lastQualifying_eq_takeWhile (endPosition startColumn : Int) :
    ∀ ms : List Nat,
      lastQualifying endPosition startColumn ms =
        (ms.takeWhile (matchQualifies endPosition startColumn)).getLast? := by
  intro ms
  induction ms with
  | nil => rfl
  | cons i rest ih =>
    rw [List.takeWhile_cons]
    by_cases hq : matchQualifies endPosition startColumn i
    · rw [if_pos hq, getLast?_cons_eq, ← ih]
      cases hr : lastQualifying endPosition startColumn rest <;>
        simp [lastQualifying, hq, hr]
    · rw [if_neg hq]
      simp [lastQualifying, hq]

/-- Claim C3: the backward scan enumerates matches in strictly increasing
start-offset order, keeps scanning exactly while a match starts strictly
below the end boundary and (when a start-column floor other than -1 is given)
at or above it — i.e. it retains the last element of the longest qualifying
prefix — and concretely a backward search with no floor over a block with two
matches returns the last one (column 3 of "barbar"), not the first. -/
theorem claim_C3_backward_last_match :
    (∀ text pat : List Char, List.Chain' (· < ·) (globalMatches text pat)) ∧
    (∀ (endPosition startColumn : Int) (ms : List Nat),
      lastQualifying endPosition startColumn ms =
        (ms.takeWhile (matchQualifies endPosition startColumn)).getLast?) ∧
    (searchRun [String.toList "barbar"] (String.toList "bar") false (-1) 0 =
      [SearchEmission.matchFound ⟨3, 0, 5, 0⟩]) := by
  refine ⟨fun text pat => globalMatchesAux_chain text pat _ _,
    fun e s ms => lastQualifying_eq_takeWhile e s ms, by decide⟩

/-- Claim C2: a forward search scans the half-range starting at the start
line first — a hit there is the reported result — and only on failure wraps
to the half-range from line 0; concretely, over lines "foo", "bar", "foobar",
a forward search for "bar" from (column 0, line 0) reports line 1 column 0,
and a forward search for "foo" from (column 3, line 2) wraps and reports
line 0. -/
theorem claim_C2_forward_order :
    (∀ (lines : List (List Char)) (pat : List Char) (sc sl : Int) (hit : SearchHit),
      pat ≠ [] →
      searchRange lines pat true sc sl (-1) (lines.length : Int) = some hit →
      searchRun lines pat true sc sl = [SearchEmission.matchFound hit]) ∧
    (∀ (lines : List (List Char)) (pat : List Char) (sc sl : Int) (hit : SearchHit),
      pat ≠ [] →
      searchRange lines pat true sc sl (-1) (lines.length : Int) = none →
      searchRange lines pat true 0 0 sc sl = some hit →
      searchRun lines pat true sc sl = [SearchEmission.matchFound hit]) ∧
    (searchRun [String.toList "foo", String.toList "bar", String.toList "foobar"]
        (String.toList "bar") true 0 0 = [SearchEmission.matchFound ⟨0, 1, 2, 1⟩]) ∧
    (searchRun [String.toList "foo", String.toList "bar", String.toList "foobar"]
        (String.toList "foo") true 3 2 = [SearchEmission.matchFound ⟨0, 0, 2, 0⟩]) := by
  refine ⟨?_, ?_, by decide, by decide⟩
  · intro lines pat sc sl hit hne hfound
    simp [searchRun, searchFound, hne, hfound]
  · intro lines pat sc sl hit hne hnone hfound
    simp [searchRun, searchFound, hne, hnone, hfound]

/-- Witness for C2: the first-half-priority part applied to the concrete
buffer, where the first half-scan already finds "bar" at line 1. -/
theorem claim_C2_forward_order_witness :
    searchRun [String.toList "foo", String.toList "bar", String.toList "foobar"]
        (String.toList "bar") true 0 0 = [SearchEmission.matchFound ⟨0, 1, 2, 1⟩] :=
  claim_C2_forward_order.1 _ _ 0 0 ⟨0, 1, 2, 1⟩ (by decide) (by decide)

/-- Claim C9: a search with an empty pattern emits nothing at all; a search
with a non-empty pattern emits exactly one signal — either `noMatchFound` or
`matchFound` with its result. -/
theorem claim_C9_one_emission (lines : List (List Char)) (pat : List Char)
    (forwards : Bool) (sc sl : Int) :
    (pat = [] → searchRun lines pat forwards sc sl = []) ∧
    (pat ≠ [] →
      searchRun lines pat forwards sc sl = [SearchEmission.noMatchFound] ∨
      ∃ hit, searchRun lines pat forwards sc sl = [SearchEmission.matchFound hit]) := by
  constructor
  · intro h; simp [searchRun, h]
  · intro h
    cases hfound : searchFound lines pat forwards sc sl with
    | none => left; simp [searchRun, h, hfound]
    | some hit => right; exact ⟨hit, by simp [searchRun, h, hfound]⟩

/-- Witness for C9: the empty pattern emits nothing on a concrete buffer. -/
theorem claim_C9_one_emission_witness :
    searchRun [String.toList "foo"] [] true 0 0 = [] :=
  (claim_C9_one_emission [String.toList "foo"] [] true 0 0).1 rfl

end Terminal
